import Mathlib

/-!
Shallow embedding of the listing query engine of `src/app.js` (an Express
web application over a static array of Airbnb listings), together with the
validation chains and route handlers that drive it.

Conventions of the embedding:
  * JavaScript strings are Lean `String`s (lists of characters).
  * JavaScript numbers are modelled as `ℚ`; `parseFloat` returning `NaN` is
    modelled as `Option.none` (in the price filter a `NaN` comparison is
    always false, exactly as excluding the listing).  `parseFloat` inputs
    denoting `Infinity` are likewise modelled as `none`: an infinite price
    compares false against every finite bound, so the filter behaviour
    agrees on all bounds produced by the numeric validators.
  * A JSON field that may be missing is an `Option`; the `NAME` key read by
    the name search (app.js:190) is the spec's `name` field of a listing.
  * A thrown exception during a request is `Except.error ()`.
-/

/-! ## Character and string helpers (JavaScript built-ins) -/

/-- Decimal digit test, `[0-9]`. -/
def isDigitCh (c : Char) : Bool := c.isDigit

/-- Numeric value of a decimal digit character. -/
def digitVal (c : Char) : Nat := c.toNat - 48

/-- Value of a list of decimal digits, most significant first. -/
def digitsVal (cs : List Char) : Nat := cs.foldl (fun a c => 10 * a + digitVal c) 0

/-- The JavaScript whitespace class used by `String.prototype.trim` and by
`parseFloat`: ASCII whitespace, NBSP, the Unicode space separators, line and
paragraph separators, and the BOM. -/
def isJsSpace (c : Char) : Bool :=
  c = ' ' || c = '\t' || c = '\n' || c = '\r' ||
  c.toNat = 11 || c.toNat = 12 || c.toNat = 160 ||
  c.toNat = 0x1680 || (0x2000 ≤ c.toNat && c.toNat ≤ 0x200A) ||
  c.toNat = 0x2028 || c.toNat = 0x2029 || c.toNat = 0x202F ||
  c.toNat = 0x205F || c.toNat = 0x3000 || c.toNat = 0xFEFF

/-- JavaScript `String.prototype.trim`: drop surrounding whitespace. -/
def jsTrim (s : String) : String :=
  ⟨((s.data.dropWhile isJsSpace).reverse.dropWhile isJsSpace).reverse⟩

/-- JavaScript `String.prototype.toLowerCase`, modelled per character. -/
def strToLower (s : String) : String := ⟨s.data.map Char.toLower⟩

/-- JavaScript `String.prototype.includes`: substring containment. -/
def strContains (hay needle : String) : Bool := decide (needle.data <:+: hay.data)

/-- Remove the first occurrence of a character: JavaScript
`String.prototype.replace` with a plain one-character pattern, as in
`item.price.replace("$", "")` (app.js:269). -/
def removeFirst (c : Char) : List Char → List Char
  | [] => []
  | x :: xs => if x = c then xs else x :: removeFirst c xs

/-- Optional leading sign: returns (isNegative, rest). -/
def parseSign : List Char → Bool × List Char
  | '-' :: r => (true, r)
  | '+' :: r => (false, r)
  | cs => (false, cs)

/-- Exponent suffix of a JavaScript float literal: an optional sign and a
digit run.  An ill-formed suffix contributes exponent `0`, matching
`parseFloat`, which stops at the longest valid literal prefix. -/
def parseExpJS (cs : List Char) : ℤ :=
  let (neg, r) := parseSign cs
  let ds := r.takeWhile isDigitCh
  if ds.isEmpty then 0
  else if neg then -(digitsVal ds : ℤ) else (digitsVal ds : ℤ)

/-- The rational value `±(ip + fp / 10^k) * 10^e` of a parsed float
literal with integer digits `ip`, `k` fraction digits of value `fp` and
exponent `e`, written as one `mkRat` over integer arithmetic. -/
def ratOfParts (neg : Bool) (ip fp k : ℕ) (e : ℤ) : ℚ :=
  let n : ℤ := (ip * 10 ^ k + fp : ℕ)
  let n : ℤ := if neg then -n else n
  if 0 ≤ e then mkRat (n * 10 ^ e.toNat) (10 ^ k)
  else mkRat n (10 ^ k * 10 ^ (-e).toNat)

/-- JavaScript `parseFloat`: skip leading whitespace, then read the longest
prefix of the form `[+-]? digits* ('.' digits*)? ([eE] [+-]? digits+)?`
containing at least one digit before the exponent; `NaN` (no digit at all)
is `none`.  The value is the exact rational of the literal (the double
rounding of the runtime is not modelled; every number in the claims is
exactly representable). -/
def parseFloatJS (cs : List Char) : Option ℚ :=
  let cs1 := cs.dropWhile isJsSpace
  let (neg, cs2) := parseSign cs1
  let intDs := cs2.takeWhile isDigitCh
  let rest := cs2.dropWhile isDigitCh
  let fracDs :=
    match rest with
    | '.' :: r => r.takeWhile isDigitCh
    | _ => []
  let rest2 :=
    match rest with
    | '.' :: r => r.dropWhile isDigitCh
    | _ => rest
  if intDs.isEmpty && fracDs.isEmpty then none
  else
    let e : ℤ :=
      match rest2 with
      | 'e' :: r3 => parseExpJS r3
      | 'E' :: r3 => parseExpJS r3
      | _ => 0
    some (ratOfParts neg (digitsVal intDs) (digitsVal fracDs) fracDs.length e)

/-- validator.js `escape` (applied by the `.escape()` sanitizer), as a
per-character expansion; the sequential global replaces of validator.js are
equivalent to this map because no replacement string contains a later
pattern character. -/
def escapeChar (c : Char) : List Char :=
  if c = '&' then "&amp;".data
  else if c = '<' then "&lt;".data
  else if c = '>' then "&gt;".data
  else if c = '"' then "&quot;".data
  else if c.toNat = 39 then "&#x27;".data
  else if c = '/' then "&#x2F;".data
  else if c = '\\' then "&#x5C;".data
  else if c.toNat = 96 then "&#96;".data
  else [c]

/-- validator.js `escape` on a whole string. -/
def escapeHtml (s : String) : String := ⟨(s.data.map escapeChar).flatten⟩

/-- validator.js `isNumeric` (default options): the anchored pattern
`[+-]? ([0-9]* '.')? [0-9]+`. -/
def isNumericStr (s : String) : Bool :=
  let (_, cs) := parseSign s.data
  let ds := cs.takeWhile isDigitCh
  let r := cs.dropWhile isDigitCh
  match r with
  | [] => !ds.isEmpty
  | '.' :: r2 => !r2.isEmpty && r2.all isDigitCh
  | _ => false

/-! ## Data model -/

/-- A JSON `id` value: the dataset may hold it as a string or as a number
(the spec keeps it a string by design; strict equality `===` against the
query string is false for a number). -/
inductive IdVal where
  | str (s : String)
  | num (q : ℚ)
deriving DecidableEq

/-- One listing record.  `name` models the `NAME` key read by the name
search (app.js:190), `price` the currency-formatted `price` key
(app.js:269); each may be absent in the JSON.  All other keys of a record
are opaque to the query engine (spec §3) and are not modelled. -/
structure Listing where
  id : Option IdVal
  name : Option String
  price : Option String
deriving DecidableEq

/-! ## Query engine (app.js route bodies) -/

/-- `airbnb_json[i]` for an integer index (app.js:110): in-range access
yields the element, any out-of-range integer yields `undefined`, never an
exception. -/
def byIndex (i : ℤ) (l : List Listing) : Option Listing :=
  if 0 ≤ i then l.get? i.toNat else none

/-- Strict equality `item.id === id` (app.js:142) between the `id` field
and the query string: true only when the field holds a string equal to the
query; a number or an absent field is never `===` a string. -/
def idStrictEq (v : Option IdVal) (q : String) : Bool :=
  match v with
  | some (.str s) => s = q
  | _ => false

/-- `airbnb_json.find((item) => item.id === id)` (app.js:142). -/
def byID (q : String) (l : List Listing) : Option Listing :=
  l.find? (fun it => idStrictEq it.id q)

/-- The filter body `item.NAME && item.NAME.toLowerCase().includes(searchName)`
(app.js:190): an absent or empty `NAME` is falsy and never matches. -/
def nameMatches (it : Listing) (searchName : String) : Bool :=
  match it.name with
  | none => false
  | some s => !(s = "") && strContains (strToLower s) searchName

/-- `airbnb_json.filter(...)` with the search key
`req.body.name.trim().toLowerCase()` (app.js:186-191). -/
def byNamePartial (q : String) (l : List Listing) : List Listing :=
  l.filter (fun it => nameMatches it (strToLower (jsTrim q)))

/-- `parseFloat(item.price.replace("$", "").trim())` on a present price
string (app.js:269). -/
def parsePrice (s : String) : Option ℚ :=
  parseFloatJS (jsTrim ⟨removeFirst '$' s.data⟩).data

/-- The price filter body `price >= min && price <= max` (app.js:270) on a
present price string; a `NaN` price compares false on both sides. -/
def priceKeep (mn mx : ℚ) (s : String) : Bool :=
  match parsePrice s with
  | none => false
  | some v => decide (mn ≤ v) && decide (v ≤ mx)

/-- `airbnb_json.filter((item) => { const price = parseFloat(item.price
.replace("$", "").trim()); return price >= min && price <= max; })`
(app.js:267-271).  The callback dereferences `item.price`: a listing with
an absent price field throws a `TypeError`, aborting the whole filter,
which is `Except.error ()`. -/
def byPriceRange (mn mx : ℚ) : List Listing → Except Unit (List Listing)
  | [] => .ok []
  | it :: rest =>
    match it.price with
    | none => .error ()
    | some s =>
      match byPriceRange mn mx rest with
      | .error e => .error e
      | .ok r => .ok (if priceKeep mn mx s then it :: r else r)

/-- `airbnb_json.slice(0, n)` (app.js:94 with `n = 20`). -/
def jsSlice (l : List Listing) (n : ℕ) : List Listing := l.take n

/-- The `/allData` preview (app.js:94): the first 20 listings. -/
def allDataPreview (l : List Listing) : List Listing := jsSlice l 20

/-! ## Rendering of the index lookup (spec-modelled) -/

/-- Outcome of rendering the `id_search_result` view for the index route. -/
inductive RecordView where
  | record (r : Listing)
  | noRecord
deriving DecidableEq

/-- Modelled from the spec: the Handlebars template `id_search_result.hbs`
is not under `src/`; per the spec (§7, "Not-found"), rendering an absent
record surfaces a "no record" message rather than an exception. -/
def renderRecord : Option Listing → RecordView
  | none => .noRecord
  | some r => .record r

/-! ## Spec-side price parse (for the refinement comparison of C4) -/

/-- Modelled from the spec's words (§4.2 ByPriceRange): "stripping a
leading currency symbol and surrounding whitespace" before the float
conversion — in contrast to the code, which removes the first `$` found
anywhere in the string. -/
def specStripPrice (s : String) : String :=
  let t := jsTrim s
  match t.data with
  | '$' :: r => jsTrim ⟨r⟩
  | _ => t

/-- Price value under the spec's wording: strip a leading `$` and
surrounding whitespace, then convert. -/
def specPriceVal (s : String) : Option ℚ := parseFloatJS (specStripPrice s).data

/-! ## Validation layer and route handlers -/

/-- One field-level validation error: the offending field's name and the
message attached by `withMessage` (the shape of `errors.array()` entries). -/
structure FieldError where
  path : String
  msg : String
deriving DecidableEq

/-- Errors of the chain `body("property_id").notEmpty().withMessage(
"Property ID is required").isNumeric().withMessage("Property ID must be a
number")` (app.js:123-129): each failing validator contributes one entry,
in chain order; the value validated is the raw field. -/
def idFieldErrors (v : String) : List FieldError :=
  (if v = "" then [⟨"property_id", "Property ID is required"⟩] else []) ++
    (if isNumericStr v then [] else [⟨"property_id", "Property ID must be a number"⟩])

/-- Errors of the chain `body("name").notEmpty().withMessage("Property name
is required")` (app.js:169-173): `notEmpty` runs on the raw value, before
the `trim` sanitizer. -/
def nameFieldErrors (v : String) : List FieldError :=
  if v = "" then [⟨"name", "Property name is required"⟩] else []

/-- Errors of one price bound's chain (app.js:237-250). -/
def priceBoundErrors (field v : String) (reqMsg numMsg : String) : List FieldError :=
  (if v = "" then [⟨field, reqMsg⟩] else []) ++
    (if isNumericStr v then [] else [⟨field, numMsg⟩])

/-- Errors of both price chains, `minPrice` then `maxPrice` (app.js:236-250). -/
def priceFieldErrors (mnS mxS : String) : List FieldError :=
  priceBoundErrors "minPrice" mnS "Minimum price is required" "Minimum price must be a number" ++
    priceBoundErrors "maxPrice" mxS "Maximum price is required" "Maximum price must be a number"

/-- The `.trim().escape()` sanitizer pair: the value the handler reads from
`req.body` after a chain has run. -/
def sanitizeField (v : String) : String := escapeHtml (jsTrim v)

/-- Response of the `POST /search/invoiceID` handler. -/
inductive IdSearchRes where
  | form (errors : List FieldError)
  | noMatch
  | found (r : Listing)
deriving DecidableEq

/-- `POST /search/invoiceID` (app.js:120-156): on validation errors the
`search_id_form` view is re-rendered with `errors.array()`; otherwise the
dataset is scanned with `find` and either the record or a "No property
found with that ID" message is rendered. -/
def searchIdHandler (l : List Listing) (property_id : String) : IdSearchRes :=
  let errs := idFieldErrors property_id
  if errs.isEmpty then
    match byID (sanitizeField property_id) l with
    | none => .noMatch
    | some r => .found r
  else .form errs

/-- Response of the `POST /search/name` handler. -/
inductive NameSearchRes where
  | form (errors : List FieldError)
  | noMatch
  | found (matched : List Listing)
deriving DecidableEq

/-- `POST /search/name` (app.js:166-208): on validation errors the
`search_name_form` view is re-rendered with `errors.array()`; otherwise
the dataset is filtered and either the matches or a "No properties found"
message is rendered. -/
def searchNameHandler (l : List Listing) (nameField : String) : NameSearchRes :=
  let errs := nameFieldErrors nameField
  if errs.isEmpty then
    match byNamePartial (sanitizeField nameField) l with
    | [] => .noMatch
    | matched => .found matched
  else .form errs

/-- Response of the `POST /viewData/price` handler. -/
inductive PriceRes where
  | form (errors : List FieldError)
  | noMatch
  | found (listings : List Listing)
deriving DecidableEq

/-- `POST /viewData/price` (app.js:234-286): on validation errors the
`price_form` view is re-rendered with `errors.array()`; otherwise the
bounds are `parseFloat`ed (validation guarantees they parse; `getD 0` is
unreachable there) and the dataset is filtered, which may throw. -/
def priceHandler (l : List Listing) (mnS mxS : String) : Except Unit PriceRes :=
  let errs := priceFieldErrors mnS mxS
  if errs.isEmpty then
    let mn := (parseFloatJS (sanitizeField mnS).data).getD 0
    let mx := (parseFloatJS (sanitizeField mxS).data).getD 0
    match byPriceRange mn mx l with
    | .error e => .error e
    | .ok [] => .ok .noMatch
    | .ok fl => .ok (.found fl)
  else .ok (.form errs)

/-! ## Concrete data used by the scenario claim, witnesses and
counterexamples -/

/-- First record of the spec's concrete scenario (§8). -/
def fstListing : Listing := ⟨some (.str "1"), some "Cozy Loft", some "$100.00"⟩

/-- Second record of the spec's concrete scenario (§8). -/
def sndListing : Listing := ⟨some (.str "2"), some "Sunny Flat", some "$250.00"⟩

/-- The spec's two-record concrete dataset (§8). -/
def twoListings : List Listing := [fstListing, sndListing]

/-- A record whose `price` key is absent. -/
def noPriceListing : Listing := ⟨some (.str "9"), some "Bare", none⟩

/-- A one-record dataset with an absent price. -/
def dsNoPrice : List Listing := [noPriceListing]

/-- A record whose price holds a `$` in the middle: `"1$0"`. -/
def dollarListing : Listing := ⟨some (.str "7"), some "Odd", some "1$0"⟩

/-- A one-record dataset exercising the non-leading `$`. -/
def dsDollar : List Listing := [dollarListing]

/-- A record whose price is present but not parseable as a number. -/
def unparsListing : Listing := ⟨some (.str "8"), some "Vague", some "N/A"⟩

/-- Instances used so that `decide` can compare handler results. -/
instance : DecidableEq (Except Unit (List Listing)) := fun a b =>
  match a, b with
  | .error _, .error _ => isTrue rfl
  | .ok x, .ok y =>
    if h : x = y then isTrue (by rw [h]) else isFalse (fun he => h (Except.ok.inj he))
  | .error _, .ok _ => isFalse (fun he => Except.noConfusion he)
  | .ok _, .error _ => isFalse (fun he => Except.noConfusion he)

instance : DecidableEq (Except Unit PriceRes) := fun a b =>
  match a, b with
  | .error _, .error _ => isTrue rfl
  | .ok x, .ok y =>
    if h : x = y then isTrue (by rw [h]) else isFalse (fun he => h (Except.ok.inj he))
  | .error _, .ok _ => isFalse (fun he => Except.noConfusion he)
  | .ok _, .error _ => isFalse (fun he => Except.noConfusion he)

/-- The price filter predicate at listing level, on datasets where it does
not throw: a listing is kept exactly when its price is present, parses,
and lies in `[mn, mx]`. -/
def listingKeep (mn mx : ℚ) (it : Listing) : Bool :=
  match it.price with
  | none => false
  | some s => priceKeep mn mx s

/-- A listing with a present, non-empty (truthy) `name` field. -/
def hasNameNonempty (it : Listing) : Bool :=
  match it.name with
  | none => false
  | some s => !(s = "")

/-! ## Helper lemmas -/

/-- The empty string is a substring of every string (JavaScript
`includes("")` is true). -/
theorem strContains_empty (h : String) : strContains h "" = true := by
  have hd : ("" : String).data = [] := rfl
  simp only [strContains, hd, decide_eq_true_eq]
  exact List.nil_infix

/-- `find?` returns the first satisfying element: the list splits around
the hit and everything before it fails the predicate. -/
theorem find?_first {α : Type} (p : α → Bool) :
    ∀ (l : List α) (x : α), l.find? p = some x →
      ∃ pre post, l = pre ++ x :: post ∧ p x = true ∧ ∀ y ∈ pre, p y = false := by
  intro l
  induction l with
  | nil => intro x h; simp [List.find?] at h
  | cons a rest ih =>
    intro x h
    by_cases ha : p a = true
    · rw [List.find?_cons_of_pos _ ha] at h
      obtain rfl : a = x := by injection h
      exact ⟨[], rest, rfl, ha, by intro y hy; simp at hy⟩
    · have ha' : p a = false := by
        cases hpa : p a with
        | true => exact absurd hpa ha
        | false => rfl
      rw [List.find?_cons_of_neg _ ha] at h
      obtain ⟨pre, post, hsplit, hx, hpre⟩ := ih x h
      refine ⟨a :: pre, post, by rw [hsplit]; rfl, hx, ?_⟩
      intro y hy
      rcases List.mem_cons.mp hy with rfl | hy'
      · exact ha'
      · exact hpre y hy'

/-- Unfolding of the name-filter body. -/
theorem nameMatches_iff (it : Listing) (key : String) :
    nameMatches it key = true ↔
      ∃ s, it.name = some s ∧ s ≠ "" ∧ strContains (strToLower s) key = true := by
  cases hn : it.name with
  | none => simp [nameMatches, hn]
  | some s =>
    simp only [nameMatches, hn, Bool.and_eq_true, Bool.not_eq_true', decide_eq_false_iff_not]
    constructor
    · rintro ⟨h1, h2⟩; exact ⟨s, rfl, h1, h2⟩
    · rintro ⟨s', hs', h1, h2⟩
      obtain rfl : s = s' := by injection hs'
      exact ⟨h1, h2⟩

/-- Unfolding of the price-filter body at listing level. -/
theorem listingKeep_iff (mn mx : ℚ) (it : Listing) :
    listingKeep mn mx it = true ↔
      ∃ s p, it.price = some s ∧ parsePrice s = some p ∧ mn ≤ p ∧ p ≤ mx := by
  cases hp : it.price with
  | none => simp [listingKeep, hp]
  | some s =>
    simp only [listingKeep, hp]
    cases hv : parsePrice s with
    | none =>
      simp only [priceKeep, hv]
      constructor
      · intro h; exact absurd h (by simp)
      · rintro ⟨s', p, hs', hv', _⟩
        obtain rfl : s = s' := by injection hs'
        rw [hv] at hv'; exact absurd hv' (by simp)
    | some v =>
      simp only [priceKeep, hv, Bool.and_eq_true, decide_eq_true_eq]
      constructor
      · rintro ⟨h1, h2⟩; exact ⟨s, v, rfl, hv, h1, h2⟩
      · rintro ⟨s', p, hs', hv', h1, h2⟩
        obtain rfl : s = s' := by injection hs'
        rw [hv] at hv'
        obtain rfl : v = p := by injection hv'
        exact ⟨h1, h2⟩

/-- On a dataset whose listings all carry a price string, the price filter
does not throw and is an ordinary `List.filter`. -/
theorem byPriceRange_eq_filter (mn mx : ℚ) :
    ∀ l : List Listing, (∀ it ∈ l, it.price.isSome) →
      byPriceRange mn mx l = .ok (l.filter (listingKeep mn mx)) := by
  intro l
  induction l with
  | nil => intro _; rfl
  | cons a rest ih =>
    intro h
    have ha : a.price.isSome := h a (List.mem_cons_self a rest)
    cases hp : a.price with
    | none => rw [hp] at ha; exact absurd ha (by simp)
    | some s =>
      have hrest := ih (fun it hit => h it (List.mem_cons_of_mem a hit))
      have hlk : listingKeep mn mx a = priceKeep mn mx s := by simp [listingKeep, hp]
      simp only [byPriceRange, hp, hrest, List.filter_cons, hlk]

/-! ## Claims -/

/-- Claim C1: for every (validated, i.e. trimmed) query `q`, the name
search is sound — every listing in the result has a present, non-empty
name that contains `q` case-insensitively — and complete — every listing
with such a name is in the result (so listings with an absent or empty
name never appear) — and the result preserves the original sequence
order. -/
theorem claim_C1 (q : String) (hq : jsTrim q = q) (l : List Listing) :
    (∀ it ∈ byNamePartial q l,
       ∃ s, it.name = some s ∧ s ≠ "" ∧ strContains (strToLower s) (strToLower q) = true) ∧
    (∀ it ∈ l,
       (∃ s, it.name = some s ∧ s ≠ "" ∧ strContains (strToLower s) (strToLower q) = true) →
         it ∈ byNamePartial q l) ∧
    (byNamePartial q l).Sublist l := by
  have hmem : ∀ it : Listing, it ∈ byNamePartial q l ↔
      it ∈ l ∧ nameMatches it (strToLower q) = true := by
    intro it
    unfold byNamePartial
    rw [hq]
    exact List.mem_filter
  refine ⟨?_, ?_, ?_⟩
  · intro it hit
    exact (nameMatches_iff it (strToLower q)).mp ((hmem it).mp hit).2
  · intro it hit hex
    exact (hmem it).mpr ⟨hit, (nameMatches_iff it (strToLower q)).mpr hex⟩
  · unfold byNamePartial
    exact List.filter_sublist l

/-- Witness for C1 at the concrete query "loft" on the scenario dataset. -/
theorem claim_C1_witness : fstListing ∈ byNamePartial "loft" twoListings :=
  (claim_C1 "loft" (by decide) twoListings).2.1 fstListing (by decide)
    ⟨"Cozy Loft", rfl, by decide, by decide⟩

/-- Claim C2: the spec's concrete two-record scenario: `ByID("2")` is the
second record, `ByNamePartial("loft")` exactly the first,
`ByPriceRange(100, 200)` exactly the first, `ByPriceRange(0, 500)` both in
original order, and `ByIndex(5)` the not-found marker. -/
theorem claim_C2 :
    byID "2" twoListings = some sndListing ∧
    byNamePartial "loft" twoListings = [fstListing] ∧
    byPriceRange 100 200 twoListings = .ok [fstListing] ∧
    byPriceRange 0 500 twoListings = .ok [fstListing, sndListing] ∧
    byIndex 5 twoListings = none := by
  decide

/-- Claim C5: `ByID` returns the first listing in sequence order whose
`id` field equals the query by strict string equality — a numeric `id`
never matches any query string, an absent `id` never matches — and `none`
(the not-found marker) exactly when no listing matches. -/
theorem claim_C5 (q : String) (l : List Listing) :
    (∀ x, byID q l = some x →
       ∃ pre post, l = pre ++ x :: post ∧ idStrictEq x.id q = true ∧
         ∀ y ∈ pre, idStrictEq y.id q = false) ∧
    (byID q l = none ↔ ∀ x ∈ l, idStrictEq x.id q = false) ∧
    (∀ n : ℚ, ∀ s : String, idStrictEq (some (.num n)) s = false) ∧
    idStrictEq none q = false := by
  refine ⟨?_, ?_, ?_, ?_⟩
  · intro x h
    exact find?_first _ l x h
  · unfold byID
    rw [List.find?_eq_none]
    constructor
    · intro h x hx
      have hnx := h x hx
      cases hb : idStrictEq x.id q with
      | false => rfl
      | true => exact absurd hb hnx
    · intro h x hx
      rw [h x hx]
      simp
  · intro n s; rfl
  · rfl

/-- Witness for C5: an absent id on the scenario dataset yields the
not-found marker. -/
theorem claim_C5_witness : byID "404" twoListings = none :=
  (claim_C5 "404" twoListings).2.1.mpr (by decide)

/-- Claim C6: an in-range index returns the listing originally at that
position; any integer index outside `[0, size)` yields the typed absent
result, rendered as the "no record" view, not an exception. -/
theorem claim_C6 (l : List Listing) :
    (∀ i : ℕ, ∀ h : i < l.length, byIndex i l = some (l.get ⟨i, h⟩)) ∧
    (∀ i : ℤ, i < 0 ∨ (l.length : ℤ) ≤ i →
       byIndex i l = none ∧ renderRecord (byIndex i l) = .noRecord) := by
  constructor
  · intro i h
    unfold byIndex
    rw [if_pos (Int.natCast_nonneg i), Int.toNat_natCast]
    exact List.get?_eq_get h
  · intro i hi
    have hnone : byIndex i l = none := by
      unfold byIndex
      rcases hi with hi | hi
      · rw [if_neg (by omega)]
      · rw [if_pos (by omega)]
        apply List.get?_eq_none.mpr
        omega
    exact ⟨hnone, by rw [hnone]; rfl⟩

/-- Witness for C6 at positions 0 (in range) and 5 (out of range) of the
two-record scenario dataset. -/
theorem claim_C6_witness :
    byIndex 0 twoListings = some fstListing ∧
    byIndex 5 twoListings = none ∧
    renderRecord (byIndex 5 twoListings) = .noRecord := by
  refine ⟨?_, ?_, ?_⟩
  · exact (claim_C6 twoListings).1 0 (by decide)
  · exact ((claim_C6 twoListings).2 5 (by decide)).1
  · exact ((claim_C6 twoListings).2 5 (by decide)).2

/-- Claim C7: `Slice(n)` returns `min(n, datasetSize)` listings, in
original order, with no error when `n` exceeds the size; it is a pure
function of the dataset, so repeated calls on the unchanged dataset are
literally the same value; the preview route uses the fixed `n = 20`. -/
theorem claim_C7 (n : ℕ) (l : List Listing) :
    (jsSlice l n).length = min n l.length ∧
    (jsSlice l n).Sublist l ∧
    jsSlice l n = jsSlice l n ∧
    allDataPreview l = jsSlice l 20 :=
  ⟨List.length_take n l, List.take_sublist n l, rfl, rfl⟩

/-- Claim C3, counterexample: on a dataset with one listing whose `price`
key is absent, the price filter throws (`item.price.replace` on
`undefined`) instead of silently excluding the listing — the result is an
exception, not the empty result the claim requires. -/
theorem claim_C3_counterexample :
    byPriceRange 0 1000 dsNoPrice = .error () ∧
    byPriceRange 0 1000 dsNoPrice ≠ .ok [] := by
  decide

/-- Claim C3 as amended: on every dataset in which each listing has a
present price string, `ByPriceRange` never raises — it is an ordinary
filter — and a listing whose present price fails to parse as a number is
silently excluded from the result, for all numeric bounds. -/
theorem claim_C3 (mn mx : ℚ) (l : List Listing) (h : ∀ it ∈ l, it.price.isSome) :
    byPriceRange mn mx l = .ok (l.filter (listingKeep mn mx)) ∧
    (∀ it ∈ l, (∃ s, it.price = some s ∧ parsePrice s = none) →
       it ∉ l.filter (listingKeep mn mx)) := by
  refine ⟨byPriceRange_eq_filter mn mx l h, ?_⟩
  rintro it hit ⟨s, hs, hp⟩ hmem
  have hk := (List.mem_filter.mp hmem).2
  obtain ⟨s', p, hs', hv', _, _⟩ := (listingKeep_iff mn mx it).mp hk
  rw [hs] at hs'
  obtain rfl : s = s' := by injection hs'
  rw [hp] at hv'
  exact Option.noConfusion hv'

/-- Witness for C3 (amended) on a dataset holding an unparseable price
`"N/A"`: no exception, and the unparseable listing is excluded. -/
theorem claim_C3_witness :
    byPriceRange 0 100 [unparsListing, fstListing] = .ok [fstListing] ∧
    unparsListing ∉ List.filter (listingKeep 0 100) [unparsListing, fstListing] := by
  refine ⟨?_, ?_⟩
  · exact (claim_C3 0 100 [unparsListing, fstListing] (by decide)).1
  · exact (claim_C3 0 100 [unparsListing, fstListing] (by decide)).2 unparsListing
      (by decide) ⟨"N/A", rfl, by decide⟩

/-- Claim C4, counterexample: the code removes the *first* `$` anywhere in
the price (`replace("$", "")`), not a leading currency symbol.  The price
`"1$0"` is read by the code as `10`, so its listing appears in
`ByPriceRange(10, 10)`, although under the claim's description (strip a
leading `$`, trim, parse) the price parses to `1`, which is not in
`[10, 10]`. -/
theorem claim_C4_counterexample :
    (10 : ℚ) ≤ 10 ∧
    byPriceRange 10 10 dsDollar = .ok [dollarListing] ∧
    dollarListing.price = some "1$0" ∧
    specPriceVal "1$0" = some 1 ∧
    ¬((10 : ℚ) ≤ 1 ∧ (1 : ℚ) ≤ 10) := by
  decide

/-- Claim C4 as amended: for all `min ≤ max`, on a dataset of present
price strings a listing is kept exactly when its price, after removing the
first `$` occurrence anywhere and trimming surrounding whitespace, parses
(as the longest numeric prefix) to `p` with `min ≤ p ≤ max`, both bounds
inclusive; the result preserves the original sequence order. -/
theorem claim_C4 (mn mx : ℚ) (_hb : mn ≤ mx) (l : List Listing)
    (h : ∀ it ∈ l, it.price.isSome) :
    byPriceRange mn mx l = .ok (l.filter (listingKeep mn mx)) ∧
    (l.filter (listingKeep mn mx)).Sublist l ∧
    (∀ it, listingKeep mn mx it = true ↔
       ∃ s p, it.price = some s ∧ parsePrice s = some p ∧ mn ≤ p ∧ p ≤ mx) :=
  ⟨byPriceRange_eq_filter mn mx l h, List.filter_sublist l,
    fun it => listingKeep_iff mn mx it⟩

/-- Witness for C4 (amended) at bounds `[100, 200]` on the scenario
dataset. -/
theorem claim_C4_witness :
    byPriceRange 100 200 twoListings = .ok (twoListings.filter (listingKeep 100 200)) ∧
    (twoListings.filter (listingKeep 100 200)).Sublist twoListings ∧
    listingKeep 100 200 fstListing = true := by
  have hc := claim_C4 100 200 (by decide) twoListings (by decide)
  exact ⟨hc.1, hc.2.1,
    (hc.2.2 fstListing).mpr ⟨"$100.00", 100, rfl, by decide, by decide, by decide⟩⟩

/-- Claim C9, counterexample: with reversed bounds the claim requires the
empty result on *every* dataset, but on a dataset with an absent price
field the filter callback still dereferences `item.price` and throws
before any comparison: the result is an exception, not the empty
result. -/
theorem claim_C9_counterexample :
    (0 : ℚ) < 1 ∧
    byPriceRange 1 0 dsNoPrice = .error () ∧
    byPriceRange 1 0 dsNoPrice ≠ .ok [] := by
  decide

/-- Claim C9 as amended: on every dataset in which each listing has a
present price string, reversed bounds (`min > max`) give the empty result
— no price can satisfy both inequalities — rather than an error or a
swapped-bounds query. -/
theorem claim_C9 (mn mx : ℚ) (hb : mx < mn) (l : List Listing)
    (h : ∀ it ∈ l, it.price.isSome) :
    byPriceRange mn mx l = .ok [] := by
  rw [byPriceRange_eq_filter mn mx l h]
  congr 1
  rw [List.filter_eq_nil_iff]
  intro it hit hk
  obtain ⟨s, p, _, _, h1, h2⟩ := (listingKeep_iff mn mx it).mp hk
  exact absurd (le_trans h1 h2) (not_le.mpr hb)

/-- Witness for C9 (amended) at bounds `min = 5 > max = 1` on the scenario
dataset. -/
theorem claim_C9_witness : byPriceRange 5 1 twoListings = .ok [] :=
  claim_C9 5 1 (by decide) twoListings (by decide)

/-- Claim C8: whenever a request's form fields fail validation, the
handler re-renders the original form with the field-level error list
(field name and message), and the query engine is never invoked — the
response does not depend on the dataset at all. -/
theorem claim_C8 (l l2 : List Listing) (pid nm mnS mxS : String) :
    (idFieldErrors pid ≠ [] →
       searchIdHandler l pid = .form (idFieldErrors pid) ∧
       searchIdHandler l pid = searchIdHandler l2 pid) ∧
    (nameFieldErrors nm ≠ [] →
       searchNameHandler l nm = .form (nameFieldErrors nm) ∧
       searchNameHandler l nm = searchNameHandler l2 nm) ∧
    (priceFieldErrors mnS mxS ≠ [] →
       priceHandler l mnS mxS = .ok (.form (priceFieldErrors mnS mxS)) ∧
       priceHandler l mnS mxS = priceHandler l2 mnS mxS) := by
  refine ⟨?_, ?_, ?_⟩
  · intro h
    have h' : (idFieldErrors pid).isEmpty = false := List.isEmpty_eq_false.mpr h
    constructor <;> simp [searchIdHandler, h']
  · intro h
    have h' : (nameFieldErrors nm).isEmpty = false := List.isEmpty_eq_false.mpr h
    constructor <;> simp [searchNameHandler, h']
  · intro h
    have h' : (priceFieldErrors mnS mxS).isEmpty = false := List.isEmpty_eq_false.mpr h
    constructor <;> simp [priceHandler, h']

/-- Witness for C8: a non-numeric id, an empty name and a malformed price
bound each re-render their form with the errors, on any dataset. -/
theorem claim_C8_witness :
    searchIdHandler [] "abc" = .form (idFieldErrors "abc") ∧
    searchNameHandler [] "" = .form (nameFieldErrors "") ∧
    priceHandler [] "" "1x" = .ok (.form (priceFieldErrors "" "1x")) :=
  ⟨((claim_C8 [] twoListings "abc" "" "" "1x").1 (by decide)).1,
   ((claim_C8 [] twoListings "abc" "" "" "1x").2.1 (by decide)).1,
   ((claim_C8 [] twoListings "abc" "" "" "1x").2.2 (by decide)).1⟩

/-- Claim C10: a whitespace-only name query passes the non-empty check
(`notEmpty` runs before the `trim` sanitizer), sanitizes to the empty
string, and then matches every listing with a present non-empty name —
the empty string is a substring of every string — so the search returns
all named listings in original order. -/
theorem claim_C10 (w : String) (hw : w ≠ "") (hsp : w.data.all isJsSpace = true)
    (l : List Listing) :
    nameFieldErrors w = [] ∧
    sanitizeField w = "" ∧
    byNamePartial (sanitizeField w) l = l.filter hasNameNonempty ∧
    (l.filter hasNameNonempty).Sublist l := by
  have h1 : w.data.dropWhile isJsSpace = [] := by
    rw [List.dropWhile_eq_nil_iff]
    intro x hx
    exact List.all_eq_true.mp hsp x hx
  have ht : jsTrim w = "" := by
    unfold jsTrim
    rw [h1]
    rfl
  have hs : sanitizeField w = "" := by
    unfold sanitizeField
    rw [ht]
    rfl
  refine ⟨?_, hs, ?_, List.filter_sublist l⟩
  · unfold nameFieldErrors
    rw [if_neg hw]
  · rw [hs]
    unfold byNamePartial
    have hkey : strToLower (jsTrim "") = "" := rfl
    rw [hkey]
    apply List.filter_congr
    intro it _
    cases hn : it.name with
    | none => simp [nameMatches, hasNameNonempty, hn]
    | some s => simp [nameMatches, hasNameNonempty, hn, strContains_empty]

/-- Witness for C10 at the one-space query on the scenario dataset. -/
theorem claim_C10_witness :
    nameFieldErrors " " = [] ∧
    sanitizeField " " = "" ∧
    byNamePartial (sanitizeField " ") twoListings = twoListings.filter hasNameNonempty ∧
    (twoListings.filter hasNameNonempty).Sublist twoListings :=
  claim_C10 " " (by decide) (by decide) twoListings
